import Mathlib

/-! Shallow embedding of the Personalized Buy-Probability / Absorbing-Markov
Waste Estimator of `backend/utils/markov_waste_estimator.py`, together with
the lookup tables of `backend/utils/waste_impact.py` that its CO2e fallback
uses.

Numbers are modelled by `ℝ` (the Python code computes with floats; the
properties at stake are order/algebraic facts in exact arithmetic, and the
`**` operator on floats is modelled by `Real.rpow`).  The SQLAlchemy stores
(`PriceCurve`, `UserDiscountStat`, `FruitInventory`, `ProductLCA`,
`Customer`) are external read-only state supplied by the database layer
(`models.py`, not part of the analysed sources); they are modelled, from the
spec's data model (§3) and from how the estimator reads them, as an explicit
read-only environment `Env` passed to every function.  `MODELS_AVAILABLE` is
taken to be `True` (the deployed configuration; the `False` branches are
trivial constant fallbacks).  A Python function that can raise an uncaught
exception is modelled as returning `Option` (`none` = exception propagates).
-/

namespace EdgeCart

noncomputable section

/-- Python `max(0.0, min(1.0, x))`, as used to normalize freshness. -/
def clamp01 (x : ℝ) : ℝ := max 0 (min 1 x)

/-- The `max_discount` normalization of `calculate_discount_from_freshness`:
`if max_discount > 1.0: max_discount /= 100.0`. -/
def mdNorm (max_discount : ℝ) : ℝ :=
  if 1 < max_discount then max_discount / 100 else max_discount

/-- Body of `calculate_discount_from_freshness` (the part after the range
check): returns `max_discount * (1 - freshness ** power)` for the
normalized `max_discount`, clamped to `[0, max_discount]`. -/
def discountClamp (freshness_score max_discount power : ℝ) : ℝ :=
  max 0 (min (mdNorm max_discount)
    (mdNorm max_discount * (1 - freshness_score ^ power)))

/-- `calculate_discount_from_freshness` (lines 23-44): raises `ValueError`
(modelled `none`) unless `0.0 <= freshness_score <= 1.0`. -/
def calculate_discount_from_freshness (freshness_score : ℝ)
    (max_discount : ℝ := 0.75) (power : ℝ := 1.5) : Option ℝ :=
  if 0 ≤ freshness_score ∧ freshness_score ≤ 1 then
    some (discountClamp freshness_score max_discount power)
  else none

/-- Modelled from the spec (§3 PriceResponseCurve) and the reads in
`p_buy_pop_interp`: one stored price curve row (`models.PriceCurve` is not
among the analysed sources). -/
structure PriceCurve where
  x_discount_bins : List ℝ
  y_pbuy : List ℝ

/-- Modelled from the spec (§3 UserDiscountStat) and the reads in
`p_buy_user_beta`: one per-(user, product, discount-bin) statistics row. -/
structure UserDiscountStat where
  user_id : ℤ
  product_name : String
  bin_low : ℝ
  bin_high : ℝ
  trials : ℕ
  buys : ℕ

/-- Modelled from the spec (§3 FreshnessState): freshness record of a lot. -/
structure FreshnessStatus where
  freshness_score : ℝ

/-- Modelled from the spec (§3 InventoryLot) and the reads in
`estimate_units_saved` / `compute_aggregate_impact`. -/
structure FruitInventory where
  id : ℤ
  store_id : ℤ
  fruit_type : String
  quantity : ℝ
  current_price : ℝ
  original_price : ℝ
  freshness : Option FreshnessStatus

/-- Modelled from the spec (§3 ProductLifecycleFactor) and the reads in
`estimate_co2e_saved`. -/
structure ProductLCA where
  displacement : ℝ
  mass_kg : ℝ
  ef_prod_kgco2e_perkg : ℝ
  ef_disposal_kgco2e_perunit : ℝ

/-- The read-only database environment: the stores the estimator queries.
`priceCurves` is `PriceCurve.query.filter_by(category=...).first()`,
`userStats` the `UserDiscountStat` table, `inventory` the `FruitInventory`
table (in query order), `productLCA` the `ProductLCA` lookup and `customers`
the customer ids in `Customer.query` order. -/
structure Env where
  priceCurves : String → Option PriceCurve
  userStats : List UserDiscountStat
  inventory : List FruitInventory
  productLCA : String → Option ProductLCA
  customers : List ℤ

/-- `np.interp(x, xp, fp, left=fp[0], right=fp[-1])` on the zipped list of
control points `(xp i, fp i)` with `xp` increasing: clamps to `fp[0]` below
the first knot, to `fp[-1]` above the last, and interpolates linearly in
between.  The `[]` case is unreachable from `p_buy_pop_interp` (its guard
rejects empty curves); the value `0.05` there is arbitrary. -/
def npInterpPairs (x : ℝ) : List (ℝ × ℝ) → ℝ
  | [] => 0.05
  | [p] => p.2
  | p :: q :: rest =>
    if x ≤ p.1 then p.2
    else if x ≤ q.1 then p.2 + (q.2 - p.2) * (x - p.1) / (q.1 - p.1)
    else npInterpPairs x (q :: rest)

/-- `p_buy_pop_interp` (lines 47-73): population buy probability.  No stored
curve: linear fallback `min(0.9, 0.05 + (d/100)*0.85)`.  Malformed stored
curve (empty sequences or mismatched lengths): constant `0.05`.  Otherwise
`np.interp` over the control points. -/
def p_buy_pop_interp (env : Env) (discount_pct : ℝ) (category : String) : ℝ :=
  match env.priceCurves category with
  | none => min 0.9 (0.05 + discount_pct / 100 * 0.85)
  | some price_curve =>
    let bins := price_curve.x_discount_bins
    let probs := price_curve.y_pbuy
    if bins = [] ∨ probs = [] ∨ bins.length ≠ probs.length then 0.05
    else npInterpPairs discount_pct (bins.zip probs)

/-- `p_buy_user_beta` (lines 76-105): sums trials/buys over the user's rows
for this product whose bin `[bin_low, bin_high)` contains `discount_pct`;
returns `(0, 0)` on zero trials, else the Beta(1,1) posterior mean
`(buys+1)/(trials+2)` with the trial count. -/
def p_buy_user_beta (env : Env) (user_id : ℤ) (product_name : String)
    (discount_pct : ℝ) : ℝ × ℕ :=
  let user_stats := env.userStats.filter
    (fun r => r.user_id == user_id && r.product_name == product_name)
  let matched := user_stats.filter
    (fun r => decide (r.bin_low ≤ discount_pct) && decide (discount_pct < r.bin_high))
  let trials := (matched.map UserDiscountStat.trials).sum
  let buys := (matched.map UserDiscountStat.buys).sum
  if trials = 0 then (0, 0)
  else (((buys : ℝ) + 1) / ((trials : ℝ) + 2), trials)

/-- `p_buy_blend` (lines 108-130): credibility blend of population and user
probabilities, `w = n / (n + m)`, returning the population value when the
user has no matching trials. -/
def p_buy_blend (env : Env) (user_id : ℤ) (product_name category : String)
    (discount_pct : ℝ) (m : ℕ := 15) : ℝ :=
  let p_pop := p_buy_pop_interp env discount_pct category
  let pu := p_buy_user_beta env user_id product_name discount_pct
  if pu.2 = 0 then p_pop
  else
    let w : ℝ := (pu.2 : ℝ) / ((pu.2 : ℝ) + (m : ℝ))
    w * pu.1 + (1 - w) * p_pop

/-- Freshness of bucket `k` (1-indexed): `F_k = 1 - (k-1)/K`. -/
def bucketFreshness (K k : ℕ) : ℝ := 1 - ((k : ℝ) - 1) / (K : ℝ)

/-- Per-bucket blended buy probability used by the Markov solver: the blend
evaluated at the bucket's discount percentage `dk * 100`.  (For `1 ≤ k ≤ K`
the bucket freshness lies in `[0,1]`, so `calculate_discount_from_freshness`
never raises there; `discountClamp` is its returned body.) -/
def bucketP (env : Env) (user_id : ℤ) (product_name category : String)
    (dmax alpha : ℝ) (K : ℕ) (k : ℕ) : ℝ :=
  p_buy_blend env user_id product_name category
    (discountClamp (bucketFreshness K k) dmax alpha * 100) 15

/-- Transient transition matrix `Q` of `sold_prob_markov`: row `i` (bucket
`i+1`) moves to bucket `i+2` with probability `1 - p (i+1)`; all other
entries stay `0` (the last row sets no `Q` entry). -/
def QMat (K : ℕ) (p : ℕ → ℝ) : Matrix (Fin K) (Fin K) ℝ :=
  fun i j => if (j : ℕ) = (i : ℕ) + 1 then 1 - p ((i : ℕ) + 1) else 0

/-- Absorption matrix `R` of `sold_prob_markov`: column 0 (Sold) is the
bucket's buy probability; column 1 (Spoiled) is `1 - p K` on the last row
only. -/
def RMat (K : ℕ) (p : ℕ → ℝ) : Matrix (Fin K) (Fin 2) ℝ :=
  fun i j =>
    if j = 0 then p ((i : ℕ) + 1)
    else if (i : ℕ) = K - 1 then 1 - p K else 0

/-- `sold_prob_markov` (lines 133-199).  `k0 = min(int((1 - clamp(f))*K) + 1, K)`
(the argument of `int` is nonnegative, so `int` is `Nat.floor`);
`B = (I - Q)⁻¹ R`; result `B[k0-1, 0]`.  Mathlib's total matrix inverse
returns `0` on singular input, matching the `except LinAlgError: return 0.0`
branch in exact arithmetic; the final indexing is out of bounds (Python
`IndexError`, uncaught — modelled `none`) exactly when `K = 0`. -/
def sold_prob_markov (env : Env) (freshness dmax alpha : ℝ) (K : ℕ)
    (dt_hours : ℝ) (user_id : ℤ) (product_name category : String) : Option ℝ :=
  let k0 : ℕ := min (⌊(1 - clamp01 freshness) * (K : ℝ)⌋₊ + 1) K
  let p : ℕ → ℝ := bucketP env user_id product_name category dmax alpha K
  let B := (1 - QMat K p)⁻¹ * RMat K p
  if h : k0 - 1 < K then some (B ⟨k0 - 1, h⟩ 0) else none

/-- A `{"dmax": ..., "alpha": ...}` policy parameter pair. -/
structure PolicyParams where
  dmax : ℝ
  alpha : ℝ

/-- `estimate_units_saved` (lines 202-277): looks the lot up (missing lot:
`0.0`), normalizes its freshness (`> 1` rescaled from percent, then clamped;
missing record: fully fresh), runs the Markov solver under the dynamic and
baseline policies and returns `max(0, quantity * (ps_dyn - ps_base))`.  An
exception from the solver propagates (`Option.bind`). -/
def estimate_units_saved (env : Env) (lot_id : ℤ)
    (baseline_params dynamic_params : PolicyParams) (user_id : ℤ)
    (K : ℕ := 48) (dt_hours : ℝ := 1) : Option ℝ :=
  match env.inventory.find? (fun it => it.id == lot_id) with
  | none => some 0
  | some item =>
    let current_freshness :=
      match item.freshness with
      | some fs =>
        clamp01 (if 1 < fs.freshness_score then fs.freshness_score / 100
                 else fs.freshness_score)
      | none => 1
    (sold_prob_markov env current_freshness dynamic_params.dmax
        dynamic_params.alpha K dt_hours user_id item.fruit_type
        item.fruit_type).bind fun ps_dyn =>
      (sold_prob_markov env current_freshness baseline_params.dmax
          baseline_params.alpha K dt_hours user_id item.fruit_type
          item.fruit_type).map fun ps_base =>
        max 0 (item.quantity * (ps_dyn - ps_base))

/-- `CO2_EMISSION_FACTORS` of `waste_impact.py` (keys other than
`'default'`). -/
def CO2_EMISSION_FACTORS (s : String) : Option ℝ :=
  match s with
  | "apple" => some 0.43
  | "banana" => some 0.48
  | "orange" => some 0.39
  | "strawberry" => some 0.67
  | "grape" => some 0.46
  | "avocado" => some 0.85
  | "tomato" => some 0.25
  | "lettuce" => some 0.35
  | "blueberry" => some 0.72
  | "mango" => some 0.55
  | "pear" => some 0.40
  | "watermelon" => some 0.30
  | "peach" => some 0.38
  | "cherry" => some 0.65
  | "default" => some 0.45
  | _ => none

/-- `AVERAGE_WEIGHT_PER_UNIT` of `waste_impact.py` (keys other than
`'default'`). -/
def AVERAGE_WEIGHT_PER_UNIT (s : String) : Option ℝ :=
  match s with
  | "apple" => some 0.18
  | "banana" => some 0.12
  | "orange" => some 0.15
  | "strawberry" => some 0.02
  | "grape" => some 0.005
  | "avocado" => some 0.20
  | "tomato" => some 0.15
  | "lettuce" => some 0.30
  | "blueberry" => some 0.001
  | "mango" => some 0.35
  | "pear" => some 0.18
  | "watermelon" => some 4.5
  | "peach" => some 0.15
  | "cherry" => some 0.008
  | "default" => some 0.15
  | _ => none

/-- `waste_impact.get_emission_factor`: dictionary lookup on the lowercased
name, defaulting to the `'default'` entry `0.45`. -/
def get_emission_factor (fruit_type : String) : ℝ :=
  (CO2_EMISSION_FACTORS fruit_type.toLower).getD 0.45

/-- `waste_impact.get_average_weight`: lookup with default `0.15`. -/
def get_average_weight (fruit_type : String) : ℝ :=
  (AVERAGE_WEIGHT_PER_UNIT fruit_type.toLower).getD 0.15

/-- `waste_impact.calculate_weight_from_quantity`. -/
def calculate_weight_from_quantity (fruit_type : String) (quantity : ℝ) : ℝ :=
  quantity * get_average_weight fruit_type

/-- `estimate_co2e_saved` (lines 280-309): `0` for non-positive units; LCA
row if present, else the generic emission-factor and average-weight
tables. -/
def estimate_co2e_saved (env : Env) (units_saved : ℝ)
    (product_name : String) : ℝ :=
  if units_saved ≤ 0 then 0
  else
    match env.productLCA product_name with
    | none =>
      units_saved * (get_average_weight product_name * get_emission_factor product_name)
    | some lca =>
      units_saved *
        (lca.displacement * lca.mass_kg * lca.ef_prod_kgco2e_perkg +
          lca.ef_disposal_kgco2e_perunit)

/-- `estimate_additional_revenue_generated` (lines 312-325). -/
def estimate_additional_revenue_generated (units_saved : ℝ)
    (product_name : String) (avg_price_per_unit : ℝ) : ℝ :=
  units_saved * avg_price_per_unit

/-- Python 3 `round` to an integer: nearest, ties to even. -/
def pyRound (x : ℝ) : ℤ :=
  if Int.fract x = 1 / 2 then (if ⌊x⌋ % 2 = 0 then ⌊x⌋ else ⌊x⌋ + 1)
  else round x

/-- Python `round(x, 2)`. -/
def pyRound2 (x : ℝ) : ℝ := (pyRound (x * 100) : ℝ) / 100

/-- The four aggregate output fields of `compute_aggregate_impact`. -/
structure ImpactResult where
  units_saved : ℝ
  waste_saved_kg : ℝ
  co2e_saved : ℝ
  revenue_generated : ℝ

/-- One iteration of the per-item loop of `compute_aggregate_impact`: a lot
whose estimate raises (`none`) is skipped; a lot with `units > 0` adds its
units, CO2e, revenue (at current price if positive, else original price) and
weight to the running totals. -/
def aggStep (env : Env) (baseline dynamic : PolicyParams) (uid : ℤ)
    (acc : ℝ × ℝ × ℝ × ℝ) (item : FruitInventory) : ℝ × ℝ × ℝ × ℝ :=
  match estimate_units_saved env item.id baseline dynamic uid 48 1 with
  | none => acc
  | some units =>
    if 0 < units then
      (acc.1 + units,
        acc.2.1 + estimate_co2e_saved env units item.fruit_type,
        acc.2.2.1 + estimate_additional_revenue_generated units item.fruit_type
          (if 0 < item.current_price then item.current_price
           else item.original_price),
        acc.2.2.2 + calculate_weight_from_quantity item.fruit_type units)
    else acc

/-- `compute_aggregate_impact` (lines 328-433): default policies, user
resolution (first customer when none is given; zeros if there is no
customer), inventory filtered to positive quantity (and by store when a
non-zero `store_id` is passed — Python `if store_id:` is falsy at `0`),
zeros on an empty selection, then the per-item loop and 2-decimal rounding
of each total. -/
def compute_aggregate_impact (env : Env) (store_id : Option ℤ := none)
    (user_id : Option ℤ := none) (baseline_params : Option PolicyParams := none)
    (dynamic_params : Option PolicyParams := none) : ImpactResult :=
  let baseline := baseline_params.getD ⟨0, 1⟩
  let dynamic := dynamic_params.getD ⟨0.75, 1.5⟩
  match (match user_id with | some u => some u | none => env.customers.head?) with
  | none => ⟨0, 0, 0, 0⟩
  | some uid =>
    let items := env.inventory.filter (fun it => decide (0 < it.quantity))
    let items :=
      match store_id with
      | some sid => if sid = 0 then items else items.filter (fun it => it.store_id == sid)
      | none => items
    if items.isEmpty then ⟨0, 0, 0, 0⟩
    else
      let t := items.foldl (aggStep env baseline dynamic uid) (0, 0, 0, 0)
      ⟨pyRound2 t.1, pyRound2 t.2.2.2, pyRound2 t.2.1, pyRound2 t.2.2.1⟩

/-! Concrete environments used to instantiate the theorems below. -/

/-- Empty database: no curves, no stats, no inventory, no customers. -/
def envEmpty : Env := ⟨fun _ => none, [], [], fun _ => none, []⟩

/-- A malformed stored curve for `"apple"`: empty bins against one
probability. -/
def envMalformed : Env :=
  ⟨fun c => if c = "apple" then some ⟨[], [1 / 2]⟩ else none, [], [],
    fun _ => none, []⟩

/-- One user-discount row: user 0, product `"apple"`, bin `[0, 100)`,
5 trials, 2 buys. -/
def envStats : Env :=
  ⟨fun _ => none, [⟨0, "apple", 0, 100, 5, 2⟩], [], fun _ => none, []⟩

/-- A single inventory lot (id 1, quantity 5, fully fresh by default). -/
def itemOne : FruitInventory := ⟨1, 1, "apple", 5, 2, 3, none⟩

/-- Database holding just `itemOne` and customer 7. -/
def envOneLot : Env := ⟨fun _ => none, [], [itemOne], fun _ => none, [7]⟩

/-! Helper lemmas about the discount curve. -/

lemma mdNorm_pos {m : ℝ} (hm : 0 < m) : 0 < mdNorm m := by
  unfold mdNorm; split <;> [linarith; exact hm]

lemma mdNorm_le_self {m : ℝ} (hm : 0 ≤ m) : mdNorm m ≤ m := by
  unfold mdNorm; split <;> [linarith; exact le_rfl]

lemma mdNorm_of_le_one {m : ℝ} (hm : m ≤ 1) : mdNorm m = m :=
  if_neg (not_lt.mpr hm)

lemma discountClamp_nonneg (f m p : ℝ) : 0 ≤ discountClamp f m p :=
  le_max_left 0 _

lemma discountClamp_le_mdNorm {m : ℝ} (hmd : 0 ≤ mdNorm m) (f p : ℝ) :
    discountClamp f m p ≤ mdNorm m :=
  max_le hmd (min_le_left _ _)

lemma discountClamp_anti_freshness {f1 f2 m p : ℝ} (h0 : 0 ≤ f1) (h12 : f1 ≤ f2)
    (hp : 0 ≤ p) (hmd : 0 ≤ mdNorm m) :
    discountClamp f2 m p ≤ discountClamp f1 m p := by
  unfold discountClamp
  have hpow : f1 ^ p ≤ f2 ^ p := Real.rpow_le_rpow h0 h12 hp
  have hmul : mdNorm m * (1 - f2 ^ p) ≤ mdNorm m * (1 - f1 ^ p) :=
    mul_le_mul_of_nonneg_left (by linarith) hmd
  exact max_le_max le_rfl (min_le_min le_rfl hmul)

lemma discountClamp_mono_dmax {f p d1 d2 : ℝ} (h0 : 0 ≤ d1) (h12 : d1 ≤ d2)
    (h1 : d2 ≤ 1) : discountClamp f d1 p ≤ discountClamp f d2 p := by
  unfold discountClamp
  rw [mdNorm_of_le_one (h12.trans h1), mdNorm_of_le_one h1]
  rcases le_or_lt 0 (1 - f ^ p) with ht | ht
  · exact max_le_max le_rfl
      (min_le_min h12 (mul_le_mul_of_nonneg_right h12 ht))
  · have l1 : d1 * (1 - f ^ p) ≤ 0 := mul_nonpos_of_nonneg_of_nonpos h0 ht.le
    have l2 : d2 * (1 - f ^ p) ≤ 0 :=
      mul_nonpos_of_nonneg_of_nonpos (h0.trans h12) ht.le
    have e1 : max 0 (min d1 (d1 * (1 - f ^ p))) = 0 :=
      max_eq_left ((min_le_right _ _).trans l1)
    have e2 : max 0 (min d2 (d2 * (1 - f ^ p))) = 0 :=
      max_eq_left ((min_le_right _ _).trans l2)
    rw [e1, e2]

/-- C7: for freshness values `f1 ≤ f2` in `[0,1]` and fixed `m > 0`, `p > 0`,
`calculate_discount_from_freshness` succeeds on both, is non-increasing in
freshness, and both results lie within `[0, m]`. -/
theorem calculate_discount_monotone_range (f1 f2 m p : ℝ)
    (h0 : 0 ≤ f1) (h12 : f1 ≤ f2) (h1 : f2 ≤ 1) (hm : 0 < m) (hp : 0 < p) :
    ∃ d1 d2, calculate_discount_from_freshness f1 m p = some d1 ∧
      calculate_discount_from_freshness f2 m p = some d2 ∧
      d2 ≤ d1 ∧ 0 ≤ d2 ∧ 0 ≤ d1 ∧ d1 ≤ m ∧ d2 ≤ m := by
  have hmd0 : 0 ≤ mdNorm m := (mdNorm_pos hm).le
  have hle : discountClamp f1 m p ≤ m :=
    (discountClamp_le_mdNorm hmd0 f1 p).trans (mdNorm_le_self hm.le)
  have hle2 : discountClamp f2 m p ≤ m :=
    (discountClamp_le_mdNorm hmd0 f2 p).trans (mdNorm_le_self hm.le)
  refine ⟨discountClamp f1 m p, discountClamp f2 m p, ?_, ?_,
    discountClamp_anti_freshness h0 h12 hp.le hmd0,
    discountClamp_nonneg _ _ _, discountClamp_nonneg _ _ _, hle, hle2⟩
  · unfold calculate_discount_from_freshness
    exact if_pos ⟨h0, h12.trans h1⟩
  · unfold calculate_discount_from_freshness
    exact if_pos ⟨h0.trans h12, h1⟩

/-- Witness for C7 at `f1 = 0`, `f2 = 1`, `m = 1/2`, `p = 1`. -/
theorem calculate_discount_monotone_range_witness :
    ((0 : ℝ) ≤ 0 ∧ (0 : ℝ) ≤ 1 ∧ (1 : ℝ) ≤ 1 ∧ (0 : ℝ) < 1 / 2 ∧ (0 : ℝ) < 1) ∧
    (∃ d1 d2, calculate_discount_from_freshness 0 (1 / 2) 1 = some d1 ∧
      calculate_discount_from_freshness 1 (1 / 2) 1 = some d2 ∧
      d2 ≤ d1 ∧ 0 ≤ d2 ∧ 0 ≤ d1 ∧ d1 ≤ 1 / 2 ∧ d2 ≤ 1 / 2) :=
  ⟨by norm_num,
    calculate_discount_monotone_range 0 1 (1 / 2) 1 le_rfl zero_le_one le_rfl
      (by norm_num) one_pos⟩

/-- C5: the blended probability equals the population probability exactly
when the matched personal trial count is `0`, and equals
`w * p_user + (1 - w) * p_pop` with `w = n / (n + m)` when `n > 0`. -/
theorem p_buy_blend_credibility (env : Env) (u : ℤ) (prod cat : String)
    (d : ℝ) (m : ℕ) :
    ((p_buy_user_beta env u prod d).2 = 0 →
      p_buy_blend env u prod cat d m = p_buy_pop_interp env d cat) ∧
    (∀ n : ℕ, (p_buy_user_beta env u prod d).2 = n → 0 < n →
      p_buy_blend env u prod cat d m =
        ((n : ℝ) / ((n : ℝ) + (m : ℝ))) * (p_buy_user_beta env u prod d).1 +
          (1 - (n : ℝ) / ((n : ℝ) + (m : ℝ))) * p_buy_pop_interp env d cat) := by
  constructor
  · intro h
    simp [p_buy_blend, h]
  · intro n hn hpos
    have hne : ¬ (p_buy_user_beta env u prod d).2 = 0 := by rw [hn]; omega
    simp only [p_buy_blend]
    rw [if_neg hne, hn]

/-- Witness for C5: no personal signal in `envEmpty` (blend = population),
5 matched trials in `envStats` (blend = credibility mixture). -/
theorem p_buy_blend_credibility_witness :
    ((p_buy_user_beta envEmpty 0 "apple" 10).2 = 0 ∧
      p_buy_blend envEmpty 0 "apple" "apple" 10 15 =
        p_buy_pop_interp envEmpty 10 "apple") ∧
    ((p_buy_user_beta envStats 0 "apple" 10).2 = 5 ∧ 0 < 5 ∧
      p_buy_blend envStats 0 "apple" "apple" 10 15 =
        ((5 : ℝ) / ((5 : ℝ) + (15 : ℝ))) * (p_buy_user_beta envStats 0 "apple" 10).1 +
          (1 - (5 : ℝ) / ((5 : ℝ) + (15 : ℝ))) * p_buy_pop_interp envStats 10 "apple") := by
  have h0 : (p_buy_user_beta envEmpty 0 "apple" 10).2 = 0 := by
    simp [p_buy_user_beta, envEmpty]
  have h5 : (p_buy_user_beta envStats 0 "apple" 10).2 = 5 := by
    norm_num [p_buy_user_beta, envStats, List.filter]
  exact ⟨⟨h0, (p_buy_blend_credibility envEmpty 0 "apple" "apple" 10 15).1 h0⟩,
    ⟨h5, by norm_num,
      (p_buy_blend_credibility envStats 0 "apple" "apple" 10 15).2 5 h5 (by norm_num)⟩⟩

/-- C1 (amended): a malformed stored curve yields the constant default
probability `0.05`, whereas the linear approximation
`min(0.9, 0.05 + 0.85*d/100)` is what an absent curve yields. -/
theorem p_buy_pop_interp_malformed_default (env : Env) (cat : String)
    (pc : PriceCurve) (d : ℝ) (hpc : env.priceCurves cat = some pc)
    (hmal : pc.x_discount_bins = [] ∨ pc.y_pbuy = [] ∨
      pc.x_discount_bins.length ≠ pc.y_pbuy.length) :
    p_buy_pop_interp env d cat = 0.05 ∧
    (∀ env2 : Env, env2.priceCurves cat = none →
      p_buy_pop_interp env2 d cat = min 0.9 (0.05 + d / 100 * 0.85)) := by
  constructor
  · simp only [p_buy_pop_interp, hpc]
    rw [if_pos hmal]
  · intro env2 h2
    simp only [p_buy_pop_interp, h2]

/-- Witness for C1 at the malformed curve of `envMalformed`. -/
theorem p_buy_pop_interp_malformed_default_witness :
    (envMalformed.priceCurves "apple" = some ⟨[], [1 / 2]⟩ ∧
      (PriceCurve.mk [] [1 / 2]).x_discount_bins = []) ∧
    (p_buy_pop_interp envMalformed 7 "apple" = 0.05 ∧
      (∀ env2 : Env, env2.priceCurves "apple" = none →
        p_buy_pop_interp env2 7 "apple" = min 0.9 (0.05 + 7 / 100 * 0.85))) :=
  ⟨⟨by simp [envMalformed], rfl⟩,
    p_buy_pop_interp_malformed_default envMalformed "apple" ⟨[], [1 / 2]⟩ 7
      (by simp [envMalformed]) (Or.inl rfl)⟩

/-- C1 counterexample: for the malformed curve of `envMalformed` and
`discount_pct = 50`, the function returns `0.05`, not the linear fallback
value `0.475` the claim asserts. -/
theorem p_buy_pop_interp_malformed_counterexample :
    p_buy_pop_interp envMalformed 50 "apple" = 0.05 ∧
    min 0.9 (0.05 + (50 : ℝ) / 100 * 0.85) = 0.475 ∧
    (0.05 : ℝ) ≠ 0.475 := by
  refine ⟨?_, by norm_num, by norm_num⟩
  simp [p_buy_pop_interp, envMalformed]

/-! Piecewise-linear interpolation: shape lemmas. -/

lemma sold_prob_markov_isSome (env : Env) (f dmax alpha : ℝ) (K : ℕ)
    (dt : ℝ) (u : ℤ) (prod cat : String) (hK : 1 ≤ K) :
    ∃ v, sold_prob_markov env f dmax alpha K dt u prod cat = some v := by
  have h : min (⌊(1 - clamp01 f) * (K : ℝ)⌋₊ + 1) K - 1 < K := by
    have h1 : min (⌊(1 - clamp01 f) * (K : ℝ)⌋₊ + 1) K ≤ K := min_le_right _ _
    omega
  simp only [sold_prob_markov]
  rw [dif_pos h]
  exact ⟨_, rfl⟩

lemma sold_prob_markov_K_zero (env : Env) (f dmax alpha : ℝ) (dt : ℝ) (u : ℤ)
    (prod cat : String) :
    sold_prob_markov env f dmax alpha 0 dt u prod cat = none := by
  have h : ¬ (min (⌊(1 - clamp01 f) * ((0 : ℕ) : ℝ)⌋₊ + 1) 0 - 1 < 0) := by
    omega
  simp only [sold_prob_markov]
  rw [dif_neg h]

/-- C2 (amended): the `except` branch only covers the matrix inversion; the
degenerate input `K = 0` is not guarded — the inversion of the empty matrix
succeeds and the subsequent out-of-bounds indexing raises (modelled `none`),
so nothing (in particular not probability `0`) is returned.  For `K ≥ 1`
the solver always returns a value. -/
theorem sold_prob_markov_degenerate (env : Env) (f dmax alpha dt : ℝ)
    (u : ℤ) (prod cat : String) (K : ℕ) :
    (K = 0 → sold_prob_markov env f dmax alpha K dt u prod cat = none) ∧
    (1 ≤ K → ∃ v, sold_prob_markov env f dmax alpha K dt u prod cat = some v) := by
  constructor
  · rintro rfl
    exact sold_prob_markov_K_zero env f dmax alpha dt u prod cat
  · exact sold_prob_markov_isSome env f dmax alpha K dt u prod cat

/-- Witness for C2 at `K = 0` and `K = 1`. -/
theorem sold_prob_markov_degenerate_witness :
    (sold_prob_markov envEmpty 1 0.75 1.5 0 1 0 "apple" "apple" = none) ∧
    (∃ v, sold_prob_markov envEmpty 1 0.75 1.5 1 1 0 "apple" "apple" = some v) :=
  ⟨(sold_prob_markov_degenerate envEmpty 1 0.75 1.5 1 0 "apple" "apple" 0).1 rfl,
    (sold_prob_markov_degenerate envEmpty 1 0.75 1.5 1 0 "apple" "apple" 1).2 le_rfl⟩

/-- C2 counterexample: at the degenerate input `K = 0` the solver does not
return probability `0` — the indexing error propagates to the caller. -/
theorem sold_prob_markov_K0_counterexample :
    sold_prob_markov envEmpty 1 0.75 1.5 0 1 0 "apple" "apple" = none ∧
    sold_prob_markov envEmpty 1 0.75 1.5 0 1 0 "apple" "apple" ≠ some 0 := by
  have h := sold_prob_markov_K_zero envEmpty 1 0.75 1.5 1 0 "apple" "apple"
  exact ⟨h, by rw [h]; exact fun hc => Option.noConfusion hc⟩

/-! The fundamental-matrix solve in exact arithmetic: `I - Q` is unit upper
triangular, hence invertible, and the absorption probabilities reduce to the
closed-form survival product. -/

lemma one_sub_QMat_diag (K : ℕ) (p : ℕ → ℝ) (i : Fin K) :
    (1 - QMat K p) i i = 1 := by
  simp [QMat, Matrix.sub_apply, Matrix.one_apply]

lemma one_sub_QMat_lower (K : ℕ) (p : ℕ → ℝ) {i j : Fin K}
    (h : (j : ℕ) < (i : ℕ)) : (1 - QMat K p) i j = 0 := by
  have hne : ¬ i = j := by
    intro hc
    subst hc
    omega
  have hq : ¬ ((j : ℕ) = (i : ℕ) + 1) := by omega
  simp [QMat, Matrix.sub_apply, Matrix.one_apply, hne, hq]

lemma one_sub_QMat_blockTriangular (K : ℕ) (p : ℕ → ℝ) :
    (1 - QMat K p).BlockTriangular id := by
  intro i j hij
  exact one_sub_QMat_lower K p hij

lemma det_one_sub_QMat (K : ℕ) (p : ℕ → ℝ) : (1 - QMat K p).det = 1 := by
  rw [Matrix.det_of_upperTriangular (one_sub_QMat_blockTriangular K p)]
  have hdiag : ∀ i ∈ Finset.univ, (1 - QMat K p) i i = (1 : ℝ) :=
    fun i _ => one_sub_QMat_diag K p i
  rw [Finset.prod_congr rfl hdiag, Finset.prod_const_one]

lemma isUnit_det_one_sub_QMat (K : ℕ) (p : ℕ → ℝ) :
    IsUnit (1 - QMat K p).det := by
  rw [det_one_sub_QMat]
  exact isUnit_one

lemma B_row_eq (K : ℕ) (p : ℕ → ℝ) (i : Fin K) :
    ((1 - QMat K p)⁻¹ * RMat K p) i 0 =
      (if h : (i : ℕ) + 1 < K then
        (1 - p ((i : ℕ) + 1)) * ((1 - QMat K p)⁻¹ * RMat K p) ⟨(i : ℕ) + 1, h⟩ 0
       else 0) + p ((i : ℕ) + 1) := by
  set B := (1 - QMat K p)⁻¹ * RMat K p with hB
  have hMB : (1 - QMat K p) * B = RMat K p := by
    rw [hB, ← Matrix.mul_assoc,
      Matrix.mul_nonsing_inv _ (isUnit_det_one_sub_QMat K p), Matrix.one_mul]
  have hent := congrFun (congrFun hMB i) 0
  rw [Matrix.mul_apply] at hent
  have hone : ∑ j : Fin K, (1 : Matrix (Fin K) (Fin K) ℝ) i j * B j 0 = B i 0 := by
    simp [Matrix.one_apply]
  have hsum : ∑ j : Fin K, QMat K p i j * B j 0 =
      (if h : (i : ℕ) + 1 < K then (1 - p ((i : ℕ) + 1)) * B ⟨(i : ℕ) + 1, h⟩ 0
       else 0) := by
    by_cases h : (i : ℕ) + 1 < K
    · rw [dif_pos h]
      rw [Finset.sum_eq_single (⟨(i : ℕ) + 1, h⟩ : Fin K)]
      · simp [QMat]
      · intro b _ hb
        have hbne : ¬ ((b : ℕ) = (i : ℕ) + 1) := fun hc => hb (Fin.ext hc)
        simp [QMat, hbne]
      · intro habs
        exact absurd (Finset.mem_univ _) habs
    · rw [dif_neg h]
      apply Finset.sum_eq_zero
      intro j _
      have hj : ¬ ((j : ℕ) = (i : ℕ) + 1) := by
        intro hc
        exact h (hc ▸ j.isLt)
      simp [QMat, hj]
  have hRi : RMat K p i 0 = p ((i : ℕ) + 1) := by simp [RMat]
  simp only [Matrix.sub_apply, sub_mul, Finset.sum_sub_distrib] at hent
  rw [hone, hsum, hRi] at hent
  linarith

lemma B_eq_closed_aux (K : ℕ) (p : ℕ → ℝ) :
    ∀ n (i : Fin K), (i : ℕ) + 1 + n = K →
      ((1 - QMat K p)⁻¹ * RMat K p) i 0 =
        1 - ∏ j in Finset.Icc ((i : ℕ) + 1) K, (1 - p j) := by
  intro n
  induction n with
  | zero =>
    intro i hi
    have hrow := B_row_eq K p i
    rw [dif_neg (by omega)] at hrow
    rw [hrow]
    obtain ⟨v, hv⟩ := i
    simp only [Fin.val_mk] at hi ⊢
    have hset : Finset.Icc (v + 1) K = {v + 1} := by
      rw [show K = v + 1 by omega]
      exact Finset.Icc_self _
    rw [hset, Finset.prod_singleton]
    ring
  | succ n ihn =>
    intro i hi
    have hlt : (i : ℕ) + 1 < K := by omega
    have hrow := B_row_eq K p i
    rw [dif_pos hlt] at hrow
    have hnext := ihn ⟨(i : ℕ) + 1, hlt⟩ (by simp only [Fin.val_mk]; omega)
    simp only [Fin.val_mk] at hnext
    rw [hrow, hnext]
    have hsplit : ∏ j in Finset.Icc ((i : ℕ) + 1) K, (1 - p j) =
        (1 - p ((i : ℕ) + 1)) * ∏ j in Finset.Icc ((i : ℕ) + 1 + 1) K, (1 - p j) := by
      rw [← Nat.Ico_succ_right, ← Nat.Ico_succ_right]
      exact Finset.prod_eq_prod_Ico_succ_bot (by omega) _
    rw [hsplit]
    ring

lemma B_eq_closed (K : ℕ) (p : ℕ → ℝ) (i : Fin K) :
    ((1 - QMat K p)⁻¹ * RMat K p) i 0 =
      1 - ∏ j in Finset.Icc ((i : ℕ) + 1) K, (1 - p j) := by
  have hi := i.isLt
  exact B_eq_closed_aux K p (K - ((i : ℕ) + 1)) i (by omega)

lemma sold_prob_markov_eq_closed (env : Env) (f dmax alpha dt : ℝ) (u : ℤ)
    (prod cat : String) (K : ℕ) (hK : 1 ≤ K) :
    sold_prob_markov env f dmax alpha K dt u prod cat =
      some (1 - ∏ k in
        Finset.Icc (min (⌊(1 - clamp01 f) * (K : ℝ)⌋₊ + 1) K) K,
        (1 - bucketP env u prod cat dmax alpha K k)) := by
  have h : min (⌊(1 - clamp01 f) * (K : ℝ)⌋₊ + 1) K - 1 < K := by
    have h1 : min (⌊(1 - clamp01 f) * (K : ℝ)⌋₊ + 1) K ≤ K := min_le_right _ _
    omega
  have hk1 : 1 ≤ min (⌊(1 - clamp01 f) * (K : ℝ)⌋₊ + 1) K :=
    le_min (by omega) hK
  simp only [sold_prob_markov]
  rw [dif_pos h]
  rw [B_eq_closed K (bucketP env u prod cat dmax alpha K)
    ⟨min (⌊(1 - clamp01 f) * (K : ℝ)⌋₊ + 1) K - 1, h⟩]
  simp only [Fin.val_mk]
  rw [show min (⌊(1 - clamp01 f) * (K : ℝ)⌋₊ + 1) K - 1 + 1 =
    min (⌊(1 - clamp01 f) * (K : ℝ)⌋₊ + 1) K by omega]

/-- C9: for every `K ≥ 1` and every per-bucket probability assignment, the
matrix `I - Q` built by `sold_prob_markov` is unit upper triangular (unit
diagonal, zero below the diagonal, zero beyond the superdiagonal), its
determinant is `1`, it is a unit, and its Mathlib inverse is a true inverse
— so in exact arithmetic the singular-matrix fallback is unreachable for
`K ≥ 1`. -/
theorem one_sub_QMat_unit_upper_triangular (K : ℕ) (p : ℕ → ℝ) (hK : 1 ≤ K) :
    (∀ i : Fin K, (1 - QMat K p) i i = 1) ∧
    (∀ i j : Fin K, (j : ℕ) < (i : ℕ) → (1 - QMat K p) i j = 0) ∧
    (∀ i j : Fin K, (i : ℕ) + 1 < (j : ℕ) → (1 - QMat K p) i j = 0) ∧
    (1 - QMat K p).det = 1 ∧ IsUnit (1 - QMat K p) ∧
    (1 - QMat K p)⁻¹ * (1 - QMat K p) = 1 := by
  refine ⟨one_sub_QMat_diag K p, fun i j h => one_sub_QMat_lower K p h,
    ?_, det_one_sub_QMat K p, ?_, ?_⟩
  · intro i j h
    have hne : ¬ i = j := fun hc => by subst hc; omega
    have hq : ¬ ((j : ℕ) = (i : ℕ) + 1) := by omega
    simp [QMat, Matrix.sub_apply, Matrix.one_apply, hne, hq]
  · exact (Matrix.isUnit_iff_isUnit_det _).mpr (isUnit_det_one_sub_QMat K p)
  · exact Matrix.nonsing_inv_mul _ (isUnit_det_one_sub_QMat K p)

/-- Witness for C9 at `K = 1` with constant bucket probability `1/2`. -/
theorem one_sub_QMat_unit_upper_triangular_witness :
    (1 ≤ 1) ∧
    ((∀ i : Fin 1, (1 - QMat 1 (fun _ => 1 / 2)) i i = 1) ∧
    (∀ i j : Fin 1, (j : ℕ) < (i : ℕ) →
      (1 - QMat 1 (fun _ => 1 / 2)) i j = 0) ∧
    (∀ i j : Fin 1, (i : ℕ) + 1 < (j : ℕ) →
      (1 - QMat 1 (fun _ => 1 / 2)) i j = 0) ∧
    (1 - QMat 1 (fun _ => 1 / 2)).det = 1 ∧
    IsUnit (1 - QMat 1 (fun _ => 1 / 2)) ∧
    (1 - QMat 1 (fun _ => 1 / 2))⁻¹ * (1 - QMat 1 (fun _ => 1 / 2)) = 1) :=
  ⟨le_rfl, one_sub_QMat_unit_upper_triangular 1 (fun _ => 1 / 2) le_rfl⟩

/-- C10: for every `K ≥ 1`, the dense fundamental-matrix solve of
`sold_prob_markov` equals the closed-form survival product
`1 - ∏ k in [k0, K], (1 - p_k)` with `p_k` the blended buy probability at
bucket `k`'s discount (`bucketP`) and
`k0 = min(int((1 - clamp(freshness)) * K) + 1, K)`. -/
theorem sold_prob_markov_closed_form (env : Env) (f dmax alpha dt : ℝ)
    (u : ℤ) (prod cat : String) (K : ℕ) (hK : 1 ≤ K) :
    sold_prob_markov env f dmax alpha K dt u prod cat =
      some (1 - ∏ k in
        Finset.Icc (min (⌊(1 - clamp01 f) * (K : ℝ)⌋₊ + 1) K) K,
        (1 - bucketP env u prod cat dmax alpha K k)) :=
  sold_prob_markov_eq_closed env f dmax alpha dt u prod cat K hK

/-- Witness for C10 at `K = 1`, full freshness. -/
theorem sold_prob_markov_closed_form_witness :
    (1 ≤ 1) ∧
    sold_prob_markov envEmpty 1 0.75 1.5 1 1 0 "apple" "apple" =
      some (1 - ∏ k in
        Finset.Icc (min (⌊(1 - clamp01 1) * ((1 : ℕ) : ℝ)⌋₊ + 1) 1) 1,
        (1 - bucketP envEmpty 0 "apple" "apple" 0.75 1.5 1 k)) :=
  ⟨le_rfl,
    sold_prob_markov_closed_form envEmpty 1 0.75 1.5 1 0 "apple" "apple" 1 le_rfl⟩

/-! Monotonicity of the sale probability in the maximum discount. -/

lemma p_buy_blend_fallback (env : Env) (u : ℤ) (prod cat : String) (d : ℝ)
    (hcurve : env.priceCurves cat = none) (hstats : env.userStats = []) :
    p_buy_blend env u prod cat d 15 = min 0.9 (0.05 + d / 100 * 0.85) := by
  simp [p_buy_blend, p_buy_user_beta, p_buy_pop_interp, hcurve, hstats]

lemma p_buy_blend_envEmpty_mono :
    ∀ a b : ℝ, 0 ≤ a → a ≤ b →
      p_buy_blend envEmpty 0 "apple" "apple" a 15 ≤
        p_buy_blend envEmpty 0 "apple" "apple" b 15 := by
  intro a b _ hab
  rw [p_buy_blend_fallback envEmpty 0 "apple" "apple" a rfl rfl,
    p_buy_blend_fallback envEmpty 0 "apple" "apple" b rfl rfl]
  exact min_le_min le_rfl (by linarith)

lemma p_buy_blend_envEmpty_bdd :
    ∀ a : ℝ, 0 ≤ a →
      0 ≤ p_buy_blend envEmpty 0 "apple" "apple" a 15 ∧
        p_buy_blend envEmpty 0 "apple" "apple" a 15 ≤ 1 := by
  intro a ha
  rw [p_buy_blend_fallback envEmpty 0 "apple" "apple" a rfl rfl]
  constructor
  · exact le_min (by norm_num) (by linarith)
  · exact (min_le_left _ _).trans (by norm_num)

/-- C3 (amended): holding freshness, `K ≥ 1`, alpha, user, product and
category fixed, the sale probability is non-decreasing in `max_discount`
provided both values lie in `[0, 1]` (the code reinterprets values `> 1` as
percentages, which breaks monotonicity across that boundary) and the
category's blended buy probability is non-decreasing in the discount and
`[0,1]`-valued (as holds for the no-curve fallback; a decreasing stored
curve also breaks monotonicity). -/
theorem sold_prob_markov_dmax_monotone (env : Env) (u : ℤ) (prod cat : String)
    (f alpha dt : ℝ) (K : ℕ) (d1 d2 : ℝ) (hK : 1 ≤ K)
    (h0 : 0 ≤ d1) (h12 : d1 ≤ d2) (h21 : d2 ≤ 1)
    (hmono : ∀ a b : ℝ, 0 ≤ a → a ≤ b →
      p_buy_blend env u prod cat a 15 ≤ p_buy_blend env u prod cat b 15)
    (hbdd : ∀ a : ℝ, 0 ≤ a →
      0 ≤ p_buy_blend env u prod cat a 15 ∧
        p_buy_blend env u prod cat a 15 ≤ 1) :
    ∃ v1 v2, sold_prob_markov env f d1 alpha K dt u prod cat = some v1 ∧
      sold_prob_markov env f d2 alpha K dt u prod cat = some v2 ∧ v1 ≤ v2 := by
  refine ⟨_, _, sold_prob_markov_eq_closed env f d1 alpha dt u prod cat K hK,
    sold_prob_markov_eq_closed env f d2 alpha dt u prod cat K hK, ?_⟩
  have key : ∏ k in Finset.Icc (min (⌊(1 - clamp01 f) * (K : ℝ)⌋₊ + 1) K) K,
        (1 - bucketP env u prod cat d2 alpha K k) ≤
      ∏ k in Finset.Icc (min (⌊(1 - clamp01 f) * (K : ℝ)⌋₊ + 1) K) K,
        (1 - bucketP env u prod cat d1 alpha K k) := by
    apply Finset.prod_le_prod
    · intro k _
      have harg : 0 ≤ discountClamp (bucketFreshness K k) d2 alpha * 100 :=
        mul_nonneg (discountClamp_nonneg _ _ _) (by norm_num)
      have hb := (hbdd _ harg).2
      simp only [bucketP]
      linarith
    · intro k _
      have hd : discountClamp (bucketFreshness K k) d1 alpha ≤
          discountClamp (bucketFreshness K k) d2 alpha :=
        discountClamp_mono_dmax h0 h12 h21
      have harg1 : 0 ≤ discountClamp (bucketFreshness K k) d1 alpha * 100 :=
        mul_nonneg (discountClamp_nonneg _ _ _) (by norm_num)
      have hmargs : discountClamp (bucketFreshness K k) d1 alpha * 100 ≤
          discountClamp (bucketFreshness K k) d2 alpha * 100 :=
        mul_le_mul_of_nonneg_right hd (by norm_num)
      have hstep := hmono _ _ harg1 hmargs
      simp only [bucketP]
      linarith
  linarith

/-- Witness for C3 on the no-curve fallback environment, `d1 = 1/4 ≤ d2 = 1/2`,
`K = 1`. -/
theorem sold_prob_markov_dmax_monotone_witness :
    ((1 ≤ 1) ∧ (0 : ℝ) ≤ 1 / 4 ∧ (1 / 4 : ℝ) ≤ 1 / 2 ∧ (1 / 2 : ℝ) ≤ 1 ∧
      (∀ a b : ℝ, 0 ≤ a → a ≤ b →
        p_buy_blend envEmpty 0 "apple" "apple" a 15 ≤
          p_buy_blend envEmpty 0 "apple" "apple" b 15) ∧
      (∀ a : ℝ, 0 ≤ a →
        0 ≤ p_buy_blend envEmpty 0 "apple" "apple" a 15 ∧
          p_buy_blend envEmpty 0 "apple" "apple" a 15 ≤ 1)) ∧
    (∃ v1 v2, sold_prob_markov envEmpty 1 (1 / 4) 1 1 1 0 "apple" "apple" = some v1 ∧
      sold_prob_markov envEmpty 1 (1 / 2) 1 1 1 0 "apple" "apple" = some v2 ∧
      v1 ≤ v2) :=
  ⟨⟨le_rfl, by norm_num, by norm_num, by norm_num,
      p_buy_blend_envEmpty_mono, p_buy_blend_envEmpty_bdd⟩,
    sold_prob_markov_dmax_monotone envEmpty 0 "apple" "apple" 1 1 1 1 (1 / 4)
      (1 / 2) le_rfl (by norm_num) (by norm_num) (by norm_num)
      p_buy_blend_envEmpty_mono p_buy_blend_envEmpty_bdd⟩

/-- C3 counterexample: raising `max_discount` from `1` (itself, i.e. 100%)
to `2` (reinterpreted as `2/100`) strictly lowers the sale probability at
`K = 2`, freshness `0`, `alpha = 1`, in the no-curve fallback environment:
the probability drops from `19/40` to `117/2000`. -/
theorem sold_prob_markov_dmax_monotone_counterexample :
    (1 : ℝ) < 2 ∧
    sold_prob_markov envEmpty 0 1 1 2 1 0 "apple" "apple" = some (19 / 40) ∧
    sold_prob_markov envEmpty 0 2 1 2 1 0 "apple" "apple" = some (117 / 2000) ∧
    (117 / 2000 : ℝ) < 19 / 40 := by
  have hk : min (⌊(1 - clamp01 0) * ((2 : ℕ) : ℝ)⌋₊ + 1) 2 = 2 := by
    norm_num [clamp01]
  have hb1 : bucketP envEmpty 0 "apple" "apple" 1 1 2 2 = 19 / 40 := by
    norm_num [bucketP, bucketFreshness, discountClamp, mdNorm, p_buy_blend,
      p_buy_user_beta, p_buy_pop_interp, envEmpty, Real.rpow_one]
  have hb2 : bucketP envEmpty 0 "apple" "apple" 2 1 2 2 = 117 / 2000 := by
    norm_num [bucketP, bucketFreshness, discountClamp, mdNorm, p_buy_blend,
      p_buy_user_beta, p_buy_pop_interp, envEmpty, Real.rpow_one]
  refine ⟨by norm_num, ?_, ?_, by norm_num⟩
  · rw [sold_prob_markov_eq_closed envEmpty 0 1 1 1 0 "apple" "apple" 2
      (by norm_num), hk, Finset.Icc_self, Finset.prod_singleton, hb1]
    norm_num
  · rw [sold_prob_markov_eq_closed envEmpty 0 2 1 1 0 "apple" "apple" 2
      (by norm_num), hk, Finset.Icc_self, Finset.prod_singleton, hb2]
    norm_num

/-! Per-lot impact estimator. -/

lemma estimate_units_saved_some (env : Env) (lot : ℤ)
    (b d : PolicyParams) (u : ℤ) (K : ℕ) (dt : ℝ) (hK : 1 ≤ K) :
    ∃ v, estimate_units_saved env lot b d u K dt = some v ∧ 0 ≤ v := by
  rcases hfind : env.inventory.find? (fun it => it.id == lot) with _ | item
  · refine ⟨0, ?_, le_rfl⟩
    simp only [estimate_units_saved, hfind]
  · simp only [estimate_units_saved, hfind]
    obtain ⟨v1, hv1⟩ := sold_prob_markov_isSome env
      (match item.freshness with
        | some fs =>
          clamp01 (if 1 < fs.freshness_score then fs.freshness_score / 100
                   else fs.freshness_score)
        | none => 1)
      d.dmax d.alpha K dt u item.fruit_type item.fruit_type hK
    obtain ⟨v2, hv2⟩ := sold_prob_markov_isSome env
      (match item.freshness with
        | some fs =>
          clamp01 (if 1 < fs.freshness_score then fs.freshness_score / 100
                   else fs.freshness_score)
        | none => 1)
      b.dmax b.alpha K dt u item.fruit_type item.fruit_type hK
    refine ⟨max 0 (item.quantity * (v1 - v2)), ?_, le_max_left _ _⟩
    rw [hv1, hv2]
    rfl

/-- C4 (amended): for every lot id, policies, user and bucket count `K ≥ 1`,
`estimate_units_saved` returns a value, and that value is `≥ 0`, also when
the dynamic policy is less aggressive than the baseline. -/
theorem estimate_units_saved_nonneg (env : Env) (lot : ℤ)
    (b d : PolicyParams) (u : ℤ) (K : ℕ) (dt : ℝ) (hK : 1 ≤ K) :
    ∃ v, estimate_units_saved env lot b d u K dt = some v ∧ 0 ≤ v :=
  estimate_units_saved_some env lot b d u K dt hK

/-- Witness for C4: a dynamic policy strictly less aggressive than the
baseline, at the default `K = 48`. -/
theorem estimate_units_saved_nonneg_witness :
    (1 ≤ 48) ∧
    ∃ v, estimate_units_saved envOneLot 1 ⟨0.75, 1.5⟩ ⟨0, 1⟩ 7 48 1 = some v ∧
      0 ≤ v :=
  ⟨by norm_num,
    estimate_units_saved_nonneg envOneLot 1 ⟨0.75, 1.5⟩ ⟨0, 1⟩ 7 48 1 (by norm_num)⟩

/-- C4 counterexample: at `K = 0` with an existing lot, no value is returned
at all (the solver's indexing error propagates), refuting the claim for
"every K". -/
theorem estimate_units_saved_K0_counterexample :
    estimate_units_saved envOneLot 1 ⟨0, 1⟩ ⟨0.75, 1.5⟩ 7 0 1 = none := by
  have hfind : envOneLot.inventory.find? (fun it => it.id == 1) = some itemOne := by
    simp [envOneLot, List.find?, itemOne]
  simp only [estimate_units_saved, hfind]
  have h1 : itemOne.freshness = none := rfl
  have h2 : itemOne.fruit_type = "apple" := rfl
  simp only [h1, h2]
  rw [sold_prob_markov_K_zero envOneLot 1 0.75 1.5 1 7 "apple" "apple"]
  rfl

/-- C8: over a portfolio holding exactly one lot with positive quantity (and
an explicitly supplied user), `compute_aggregate_impact` returns exactly the
2-decimal roundings of the values obtained by applying
`estimate_units_saved`, `estimate_co2e_saved` and
`estimate_additional_revenue_generated` (at current price if positive, else
original price) directly to that lot — together with the rounded weight
figure. -/
theorem compute_aggregate_impact_single_lot (env : Env) (item : FruitInventory)
    (uid : ℤ) (bp dp : PolicyParams)
    (hinv : env.inventory = [item]) (hq : 0 < item.quantity) :
    ∃ units, estimate_units_saved env item.id bp dp uid 48 1 = some units ∧
      compute_aggregate_impact env none (some uid) (some bp) (some dp) =
        ⟨pyRound2 units,
         pyRound2 (calculate_weight_from_quantity item.fruit_type units),
         pyRound2 (estimate_co2e_saved env units item.fruit_type),
         pyRound2 (estimate_additional_revenue_generated units item.fruit_type
           (if 0 < item.current_price then item.current_price
            else item.original_price))⟩ := by
  obtain ⟨units, hu, hu0⟩ :=
    estimate_units_saved_some env item.id bp dp uid 48 1 (by norm_num)
  refine ⟨units, hu, ?_⟩
  simp only [compute_aggregate_impact, Option.getD_some, hinv,
    List.filter_cons, List.filter_nil, decide_eq_true_eq, hq, if_pos,
    List.isEmpty_cons, List.foldl_cons, List.foldl_nil, Bool.false_eq_true,
    if_false]
  simp only [aggStep, hu]
  rcases hu0.lt_or_eq with hpos | hzero
  · rw [if_pos hpos]
    simp [estimate_co2e_saved]
  · rw [if_neg (by rw [← hzero]; exact lt_irrefl 0)]
    rw [← hzero]
    simp [estimate_co2e_saved, calculate_weight_from_quantity,
      estimate_additional_revenue_generated]

/-- Witness for C8 on the one-lot database `envOneLot`. -/
theorem compute_aggregate_impact_single_lot_witness :
    (envOneLot.inventory = [itemOne] ∧ 0 < itemOne.quantity) ∧
    (∃ units, estimate_units_saved envOneLot itemOne.id ⟨0, 1⟩ ⟨0.75, 1.5⟩ 7 48 1 =
        some units ∧
      compute_aggregate_impact envOneLot none (some 7) (some ⟨0, 1⟩)
          (some ⟨0.75, 1.5⟩) =
        ⟨pyRound2 units,
         pyRound2 (calculate_weight_from_quantity itemOne.fruit_type units),
         pyRound2 (estimate_co2e_saved envOneLot units itemOne.fruit_type),
         pyRound2 (estimate_additional_revenue_generated units itemOne.fruit_type
           (if 0 < itemOne.current_price then itemOne.current_price
            else itemOne.original_price))⟩) :=
  ⟨⟨rfl, by norm_num [itemOne]⟩,
    compute_aggregate_impact_single_lot envOneLot itemOne 7 ⟨0, 1⟩ ⟨0.75, 1.5⟩
      rfl (by norm_num [itemOne])⟩

end

end EdgeCart
